import Mathlib

/-!
Shallow embedding of the capture/upload coordinator of
`src/extension/background/background.js` (class `BackgroundManager`),
together with theorems settling the frozen claims about it.

JavaScript objects are aliased mutable references: the upload queue can
hold the same object twice (the disconnected branch of `uploadScreenshot`
pushes the received reference, line 301), and the retry sweep mutates
queue items in place (lines 387-388).  The embedding therefore stores the
objects in a `heap : List Screenshot` and lets `uploadQueue` be a list of
references (indices into the heap); allocation is an append to the heap.

Network and storage outcomes are supplied by explicit oracles: a
`List Bool` consumed one entry per `fetch`, and a `Bool` per durable-store
write.  Time is an explicit `now : Int` parameter (`Date.now()`); within
one cascade of synchronous calls the clock is modelled as not advancing.
-/

namespace EMR

/-- A screenshot object as constructed by `processScreenshot`
(background.js lines 256-264).  The retry bookkeeping fields `retryCount`
and `lastRetry` are absent (`none`) on a fresh capture and are only set by
the upload failure path (lines 350-353) and the sweep (lines 387-388). -/
structure Screenshot where
  id : Nat
  timestamp : Int
  url : String
  title : String
  dataUrl : String
  size : Nat
  quality : Rat
  retryCount : Option Nat
  lastRetry : Option Int
deriving Repr, DecidableEq

/-- Placeholder object returned when a reference is read out of range;
never reachable for well-formed references. -/
def dummyScreenshot : Screenshot :=
  { id := 0, timestamp := 0, url := "", title := "", dataUrl := "", size := 0
    quality := 0, retryCount := none, lastRetry := none }

/-- The slice of `this.state` driving the upload pipeline, retry sweep and
connectivity probe: `serverConnected`, `uploadQueue` (as references into
`heap`), and the object store itself. -/
structure St where
  serverConnected : Bool
  queue : List Nat
  heap : List Screenshot
deriving Repr, DecidableEq

/-- Dereference: read the object a queue entry points at. -/
def getObj (st : St) (r : Nat) : Screenshot :=
  st.heap.getD r dummyScreenshot

/-- The backoff eligibility test of the sweep filter (lines 372-376):
`now - (item.lastRetry || 0) >= Math.pow(2, item.retryCount || 0) * 1000`.
A missing field defaults to `0` exactly as `|| 0` does. -/
def retryEligible (now : Int) (item : Screenshot) : Bool :=
  let timeSinceLastRetry : Int := now - item.lastRetry.getD 0
  let backoffDelay : Int := 2 ^ item.retryCount.getD 0 * 1000
  decide (timeSinceLastRetry ≥ backoffDelay)

/-- Line 379: `item.retryCount >= this.state.settings.maxRetries`.  In
JavaScript a missing `retryCount` is `undefined`, and
`undefined >= maxRetries` is false. -/
def retryCountAtMax (maxRetries : Nat) (item : Screenshot) : Bool :=
  match item.retryCount with
  | none => false
  | some c => decide (c ≥ maxRetries)

/-- Body of `uploadScreenshot` (lines 296-366), with the sweep pass that
the un-awaited `this.scheduleRetry()` of the catch clause (line 364)
starts passed in as `nested`.  Returns the new state, the references
network-attempted (a `fetch` reached the wire), and the remaining oracle.

* lines 299-303: server not connected — push the same reference onto the
  queue, make no network attempt;
* lines 324-344: connected — attempt the POST; on success (2xx) set
  `serverConnected := true`;
* lines 346-365: on failure push a fresh copy of the item whose
  `retryCount` is reset to `0` and `lastRetry` stamped now, set
  `serverConnected := false`, and run the nested sweep pass. -/
def uploadScreenshotGo (nested : St → List Bool → St × List Nat × List Bool)
    (st : St) (r : Nat) (oracle : List Bool) (now : Int) :
    St × List Nat × List Bool :=
  let item := getObj st r
  if st.serverConnected = false then
    ({ st with queue := st.queue ++ [r] }, [], oracle)
  else
    let fetchOk := oracle.headD false
    let rest := oracle.tail
    if fetchOk then
      ({ st with serverConnected := true }, [r], rest)
    else
      let retried : Screenshot :=
        { item with retryCount := some 0, lastRetry := some now }
      let st2 : St :=
        { st with serverConnected := false
                  heap := st.heap ++ [retried]
                  queue := st.queue ++ [st.heap.length] }
      let out := nested st2 rest
      (out.1, r :: out.2.1, out.2.2)

/-- The `for (const item of retryableItems)` loop of `scheduleRetry`
(lines 378-392).  `rs` is the snapshot of eligible references; each step
re-reads the object from the live heap.  Once `retryCount` has reached
`maxRetries` every live queue entry sharing the item's id is dropped
(lines 379-384); otherwise the item is mutated in place — `retryCount`
incremented, `lastRetry := now` — and `uploadScreenshot` re-run on it
(lines 386-391). -/
def sweepListGo (nested : St → List Bool → St × List Nat × List Bool)
    (maxRetries : Nat) (now : Int) :
    List Nat → St → List Bool → List Nat → St × List Nat × List Bool
  | [], st, oracle, attempts => (st, attempts, oracle)
  | r :: rest, st, oracle, attempts =>
    let item := getObj st r
    if retryCountAtMax maxRetries item then
      let st2 : St :=
        { st with queue := st.queue.filter (fun q => (getObj st q).id != item.id) }
      sweepListGo nested maxRetries now rest st2 oracle attempts
    else
      let item2 : Screenshot :=
        { item with retryCount := some (item.retryCount.getD 0 + 1)
                    lastRetry := some now }
      let st2 : St := { st with heap := st.heap.set r item2 }
      let out := uploadScreenshotGo nested st2 r oracle now
      sweepListGo nested maxRetries now rest out.1 out.2.2 (attempts ++ out.2.1)

/-- One invocation of `scheduleRetry` (lines 368-399) at time `now`:
snapshot the eligible items (lines 370-376), then run the retry loop.
`fuel` bounds how deep the cascade of nested sweep passes started from the
upload catch clause can go; `fuel = 0` is a pass that does nothing (its
work deferred to the next timer tick).  The unconditional `setTimeout`
rescheduling (lines 395-398) mutates no state and has no counterpart. -/
def scheduleRetry (maxRetries : Nat) (now : Int) :
    Nat → St → List Bool → St × List Nat × List Bool
  | 0, st, oracle => (st, [], oracle)
  | fuel + 1, st, oracle =>
    let retryableItems := st.queue.filter (fun r => retryEligible now (getObj st r))
    sweepListGo (fun st o => scheduleRetry maxRetries now fuel st o)
      maxRetries now retryableItems st oracle []

/-- `uploadScreenshot` (lines 296-366): the nested sweep pass started by
the catch clause runs with the given fuel. -/
def uploadScreenshot (fuel maxRetries : Nat) (st : St) (r : Nat)
    (oracle : List Bool) (now : Int) : St × List Nat × List Bool :=
  uploadScreenshotGo (fun st o => scheduleRetry maxRetries now fuel st o)
    st r oracle now

/-- The `for (const item of itemsToProcess)` loop of `processUploadQueue`
(lines 461-469).  `uploadScreenshot` never rejects — its whole body is
wrapped in its own try/catch — so the re-push in the catch on line 467 is
unreachable and has no counterpart here.  `runs` records every reference
pushed through the upload pipeline, `attempts` the network attempts. -/
def drainLoop (fuel maxRetries : Nat) (now : Int) :
    List Nat → St → List Bool → List Nat → List Nat →
    St × List Nat × List Nat × List Bool
  | [], st, oracle, runs, attempts => (st, runs, attempts, oracle)
  | r :: rest, st, oracle, runs, attempts =>
    let out := uploadScreenshot fuel maxRetries st r oracle now
    drainLoop fuel maxRetries now rest out.1 out.2.2 (runs ++ [r]) (attempts ++ out.2.1)

/-- `processUploadQueue` (lines 452-470): return if the queue is empty,
otherwise snapshot the queue, clear it, and push every snapshot item
through the upload pipeline. -/
def processUploadQueue (fuel maxRetries : Nat) (st : St) (oracle : List Bool)
    (now : Int) : St × List Nat × List Nat × List Bool :=
  if st.queue = [] then (st, [], [], oracle)
  else
    let itemsToProcess := st.queue
    drainLoop fuel maxRetries now itemsToProcess { st with queue := [] } oracle [] []

/-- `checkServerConnection` (lines 413-450): set `serverConnected` to the
probe outcome (`response.ok`; a thrown fetch counts as a failed probe) and,
when now connected with a non-empty queue, drain the queue through
`processUploadQueue`.  The popup notification and the 30-second
rescheduling mutate no state. -/
def checkServerConnection (fuel maxRetries : Nat) (st : St) (probeOk : Bool)
    (oracle : List Bool) (now : Int) : St × List Nat × List Nat × List Bool :=
  let st1 : St := { st with serverConnected := probeOk }
  if st1.serverConnected = true ∧ st1.queue ≠ [] then
    processUploadQueue fuel maxRetries st1 oracle now
  else
    (st1, [], [], oracle)

/-- The screenshot call options built on each capture tick
(lines 208-211): `format: 'png'`, and
`quality: Math.floor(this.state.settings.quality * 100)`. -/
def captureQuality (quality : Rat) : Int := ⌊quality * 100⌋

/-- The in-memory retention step of `processScreenshot` (lines 277-286):
if 10 screenshots are already held, shift off the oldest, then push the
new one. -/
def pushRecentScreenshot (screenshots : List Screenshot) (s : Screenshot) :
    List Screenshot :=
  (if screenshots.length ≥ 10 then screenshots.drop 1 else screenshots) ++ [s]

/-- The capture-toggle slice of the coordinator state: the `isCapturing`
flag, the stored interval handle (`captureTimer`), the interval timers the
platform is currently running, and a counter supplying fresh handles for
`setInterval`. -/
structure CapSt where
  isCapturing : Bool
  captureTimer : Option Nat
  activeTimers : List Nat
  nextTimer : Nat
deriving Repr, DecidableEq

/-- The `chrome.storage.local.set` write inside `saveState`: it fails when
the durable store does (`persistOk = false`). -/
def saveStateWrite (persistOk : Bool) : Except String Unit :=
  if persistOk then Except.ok () else Except.error "storage write failed"

/-- `saveState` (lines 45-57): the write may fail, but the catch clause on
lines 54-56 swallows the error and only logs it, so the caller never
observes a failure. -/
def saveState (persistOk : Bool) : Except String Unit :=
  match saveStateWrite persistOk with
  | Except.ok _ => Except.ok ()
  | Except.error _ => Except.ok ()

/-- `startCapture` (lines 132-159).  Returns the new state and the outcome
propagated to `handleMessage`, which answers `success: true` exactly when
no exception reached it (lines 81-84, 123-129).  Lines 133-136: no-op when
already capturing.  Line 139 sets the flag, line 140 persists; the catch
on lines 154-158 would roll the flag back and rethrow.  Lines 143-145 arm
a fresh interval timer. -/
def startCapture (st : CapSt) (persistOk : Bool) : CapSt × Except String Unit :=
  if st.isCapturing then (st, Except.ok ())
  else
    let st1 : CapSt := { st with isCapturing := true }
    match saveState persistOk with
    | Except.error e => ({ st1 with isCapturing := false }, Except.error e)
    | Except.ok _ =>
      ({ st1 with captureTimer := some st1.nextTimer
                  activeTimers := st1.activeTimers ++ [st1.nextTimer]
                  nextTimer := st1.nextTimer + 1 }, Except.ok ())

/-- `stopCapture` (lines 161-189).  Lines 162-165: no-op when not
capturing.  Line 168 clears the flag, line 169 persists; the catch on
lines 184-188 would restore the flag and rethrow.  Lines 172-175 clear the
interval timer when one is stored. -/
def stopCapture (st : CapSt) (persistOk : Bool) : CapSt × Except String Unit :=
  if st.isCapturing = false then (st, Except.ok ())
  else
    let st1 : CapSt := { st with isCapturing := false }
    match saveState persistOk with
    | Except.error e => ({ st1 with isCapturing := true }, Except.error e)
    | Except.ok _ =>
      match st1.captureTimer with
      | some t =>
        ({ st1 with captureTimer := none
                    activeTimers := st1.activeTimers.filter (fun x => x != t) },
         Except.ok ())
      | none => (st1, Except.ok ())

/-- State of the coordinator before any toggle: not capturing, no timer
(constructor lines 4-18, `captureTimer: null`). -/
def initialCapSt : CapSt :=
  { isCapturing := false, captureTimer := none, activeTimers := [], nextTimer := 0 }

/-- A control-surface toggle request. -/
inductive Toggle where
  | start
  | stop
deriving Repr, DecidableEq

/-- Apply one toggle request together with the outcome of its durable
write. -/
def applyToggle (st : CapSt) (op : Toggle × Bool) : CapSt :=
  match op.1 with
  | Toggle.start => (startCapture st op.2).1
  | Toggle.stop => (stopCapture st op.2).1

/-- Run a sequence of `startCapture`/`stopCapture` calls from the initial
state. -/
def runToggles (ops : List (Toggle × Bool)) : CapSt :=
  ops.foldl applyToggle initialCapSt

/-- Whether the most recent toggle request in the sequence was
`startCapture`. -/
def lastToggleIsStart (ops : List (Toggle × Bool)) : Bool :=
  match ops.getLast? with
  | some (Toggle.start, _) => true
  | _ => false

/-- A JavaScript settings value: the settings object mixes numbers and
booleans. -/
inductive SettingVal where
  | num (q : Rat)
  | bool (b : Bool)
deriving Repr, DecidableEq

/-- The settings object viewed as a key-value map. -/
def SettingsMap : Type := String → Option SettingVal

/-- The defaults from the constructor (lines 13-17): `quality: 0.8`,
`maxRetries: 3`, `enableNotifications: true`. -/
def defaultSettings : SettingsMap := fun k =>
  if k = "quality" then some (SettingVal.num (4/5))
  else if k = "maxRetries" then some (SettingVal.num 3)
  else if k = "enableNotifications" then some (SettingVal.bool true)
  else none

/-- The merge on line 402 of `updateSettings`:
`this.state.settings = { ...this.state.settings, ...newSettings }` — every
key of `newSettings` overrides, every other key is kept. -/
def updateSettingsMerge (settings newSettings : SettingsMap) : SettingsMap :=
  fun k => (newSettings k).orElse (fun _ => settings k)

/-- The `getSettings` response (lines 96-101): `data` is the settings
object itself. -/
def getSettingsResponse (settings : SettingsMap) : SettingsMap := settings

/-- A one-key settings patch, such as `{captureInterval: n}`. -/
def singleSetting (key : String) (v : SettingVal) : SettingsMap :=
  fun k => if k = key then some v else none

/-! Shared helper lemmas. -/

/-- `saveState` never reports a failure: the catch on lines 54-56 swallows
the storage error. -/
theorem saveState_ok (persistOk : Bool) : saveState persistOk = Except.ok () := by
  cases persistOk <;> rfl

/-- Reading a reference is unaffected by setting a different reference. -/
theorem getD_set_ne (l : List Screenshot) (a : Screenshot) {m n : Nat}
    (h : m ≠ n) (d : Screenshot) : (l.set m a).getD n d = l.getD n d := by
  simp [List.getD_eq_getElem?_getD, List.getElem?_set_ne h]

/-- Reading a reference is unaffected by allocating new objects. -/
theorem getD_append_lt (l l' : List Screenshot) (d : Screenshot) {n : Nat}
    (h : n < l.length) : (l ++ l').getD n d = l.getD n d :=
  List.getD_append l l' d n h

/-- Reading the reference of a just-allocated object gives that object. -/
theorem getD_append_self (l : List Screenshot) (a : Screenshot) (d : Screenshot) :
    (l ++ [a]).getD l.length d = a := by
  rw [List.getD_append_right _ _ _ _ le_rfl]
  simp

/-! ### C10 — `updateSettings` merges arbitrary keys, visible in `getSettings` -/

/-- C10: `updateSettings` merges every key of its patch into the settings
object, including keys outside the documented settings model: after
`updateSettings({captureInterval: n})` the `getSettings` response carries
the `captureInterval` key alongside the documented fields `quality`,
`maxRetries` and `enableNotifications` at their untouched values. -/
theorem updateSettings_merges_undocumented_keys (n : Rat) :
    getSettingsResponse (updateSettingsMerge defaultSettings
        (singleSetting "captureInterval" (SettingVal.num n))) "captureInterval"
      = some (SettingVal.num n) ∧
    getSettingsResponse (updateSettingsMerge defaultSettings
        (singleSetting "captureInterval" (SettingVal.num n))) "quality"
      = some (SettingVal.num (4/5)) ∧
    getSettingsResponse (updateSettingsMerge defaultSettings
        (singleSetting "captureInterval" (SettingVal.num n))) "maxRetries"
      = some (SettingVal.num 3) ∧
    getSettingsResponse (updateSettingsMerge defaultSettings
        (singleSetting "captureInterval" (SettingVal.num n))) "enableNotifications"
      = some (SettingVal.bool true) := by
  refine ⟨rfl, rfl, rfl, rfl⟩

/-! ### C3 — persistence failures are swallowed, never surfaced, no rollback -/

/-- The coordinator state right after a successful `startCapture` from the
initial state: capturing, timer `0` armed. -/
def armedCapSt : CapSt :=
  { isCapturing := true, captureTimer := some 0, activeTimers := [0], nextTimer := 1 }

/-- The coordinator state after `stopCapture` from `armedCapSt`. -/
def disarmedCapSt : CapSt :=
  { isCapturing := false, captureTimer := none, activeTimers := [], nextTimer := 1 }

/-- C3 is wrong about the code: `saveState` catches the storage error
internally (lines 54-56), so `startCapture`/`stopCapture` always report
success and the rollback branches (lines 154-158, 184-188) are
unreachable.  With the durable write failing, `startCapture` still flips
`capturing` to true, arms the timer and answers success; `stopCapture`
likewise completes as if the write had succeeded. -/
theorem persistence_failure_not_surfaced :
    saveStateWrite false = Except.error "storage write failed" ∧
    (∀ st persistOk, (startCapture st persistOk).2 = Except.ok () ∧
        (stopCapture st persistOk).2 = Except.ok ()) ∧
    startCapture initialCapSt false = (armedCapSt, Except.ok ()) ∧
    stopCapture armedCapSt false = (disarmedCapSt, Except.ok ()) := by
  refine ⟨rfl, ?_, rfl, rfl⟩
  intro st persistOk
  constructor
  · unfold startCapture
    by_cases h : st.isCapturing <;> simp [h, saveState_ok]
  · unfold stopCapture
    by_cases h : st.isCapturing <;> simp [h, saveState_ok]
    cases st.captureTimer <;> simp

/-! ### C4 — capture quality is floor, not round -/

/-- C4 counterexample: at `settings.quality = 0.875` (inside `[0.1, 1.0]`
and exactly representable) the code's `Math.floor(quality * 100)` gives
`87`, while `round(quality * 100)` gives `88`. -/
theorem captureQuality_not_round :
    captureQuality (7/8) = 87 ∧
    round ((7/8 : Rat) * 100) = 88 ∧
    (1/10 : Rat) ≤ 7/8 ∧ (7/8 : Rat) ≤ 1 ∧
    captureQuality (7/8) ≠ round ((7/8 : Rat) * 100) := by
  have h1 : captureQuality (7/8) = 87 := by
    unfold captureQuality
    rw [Int.floor_eq_iff]
    norm_num
  have h2 : round ((7/8 : Rat) * 100) = 88 := by
    rw [round_eq, Int.floor_eq_iff]
    norm_num
  refine ⟨h1, h2, by norm_num, by norm_num, ?_⟩
  rw [h1, h2]
  decide

/-- C4 amended: on every capture tick the screenshot primitive receives
`quality = floor(settings.quality * 100)`.  For `settings.quality` in
`[0.1, 1.0]` this lies in `[10, 100]`, never exceeds
`round(settings.quality * 100)`, and agrees with it exactly when the
fractional part of `quality * 100` is below one half. -/
theorem captureQuality_floor_spec (q : Rat) (h1 : 1/10 ≤ q) (h2 : q ≤ 1) :
    (10 : Int) ≤ captureQuality q ∧ captureQuality q ≤ 100 ∧
    captureQuality q ≤ round (q * 100) ∧
    (Int.fract (q * 100) < 1/2 → captureQuality q = round (q * 100)) := by
  unfold captureQuality
  refine ⟨?_, ?_, ?_, ?_⟩
  · rw [Int.le_floor]
    push_cast
    linarith
  · calc ⌊q * 100⌋ ≤ ⌊(100 : Rat)⌋ := Int.floor_le_floor (by linarith)
      _ = 100 := by norm_num
  · rw [round_eq]
    exact Int.floor_le_floor (by linarith)
  · intro hf
    rw [round, if_pos (by linarith)]

/-- Witness for `captureQuality_floor_spec` at `quality = 1/2`. -/
theorem captureQuality_floor_spec_witness :
    (10 : Int) ≤ captureQuality (1/2) ∧ captureQuality (1/2) ≤ 100 ∧
    captureQuality (1/2) ≤ round ((1/2 : Rat) * 100) ∧
    (Int.fract ((1/2 : Rat) * 100) < 1/2 → captureQuality (1/2) = round ((1/2 : Rat) * 100)) :=
  captureQuality_floor_spec (1/2) (by norm_num) (by norm_num)

/-! ### C5 — `recentCaptures` capacity 10, FIFO eviction -/

/-- One retention step keeps the backup list within capacity. -/
theorem pushRecent_length_le (l : List Screenshot) (s : Screenshot)
    (h : l.length ≤ 10) : (pushRecentScreenshot l s).length ≤ 10 := by
  unfold pushRecentScreenshot
  by_cases hl : l.length ≥ 10 <;> simp [hl] <;> omega

/-- Folding retention steps from within capacity stays within capacity. -/
theorem foldlPush_length_le (caps : List Screenshot) (l : List Screenshot)
    (h : l.length ≤ 10) :
    (caps.foldl pushRecentScreenshot l).length ≤ 10 := by
  induction caps generalizing l with
  | nil => simpa
  | cons c cs ih => exact ih _ (pushRecent_length_le _ _ h)

/-- Up to 10 captures, the backup list is exactly the capture sequence. -/
theorem foldlPush_id (caps : List Screenshot) (h : caps.length ≤ 10) :
    caps.foldl pushRecentScreenshot [] = caps := by
  induction caps using List.reverseRecOn with
  | nil => rfl
  | append_singleton L b ih =>
    rw [List.foldl_append]
    have hL : L.length ≤ 10 := by simp at h; omega
    have hL9 : ¬ L.length ≥ 10 := by simp at h; omega
    simp [ih hL, pushRecentScreenshot, hL9]

/-- Eleven captures evict exactly the first one. -/
theorem foldlPush_eleven (caps : List Screenshot) (h : caps.length = 11) :
    caps.foldl pushRecentScreenshot [] = caps.tail := by
  rcases List.eq_nil_or_concat caps with rfl | ⟨L, b, rfl⟩
  · simp at h
  · simp only [List.concat_eq_append] at h ⊢
    rw [List.foldl_append]
    have hL : L.length = 10 := by simp at h; omega
    rw [foldlPush_id L (by omega)]
    simp only [List.foldl_cons, List.foldl_nil]
    unfold pushRecentScreenshot
    rw [if_pos (by omega)]
    cases L with
    | nil => simp at hL
    | cons x xs => simp

/-- C5: after every sequence of successful captures starting from an empty
backup list, `recentCaptures` holds at most 10 entries; a sequence of 11
captures leaves exactly captures 2..11 (the oldest is evicted first), so
when the first capture's id differs from the later ones it is absent. -/
theorem recentCaptures_capacity_and_fifo :
    (∀ caps : List Screenshot, (caps.foldl pushRecentScreenshot []).length ≤ 10) ∧
    (∀ caps : List Screenshot, caps.length = 11 →
        caps.foldl pushRecentScreenshot [] = caps.tail) ∧
    (∀ c0 : Screenshot, ∀ rest : List Screenshot, rest.length = 10 →
        (∀ c ∈ rest, c.id ≠ c0.id) →
        ∀ s ∈ (c0 :: rest).foldl pushRecentScreenshot [], s.id ≠ c0.id) := by
  refine ⟨fun caps => foldlPush_length_le caps [] (by simp),
    fun caps h => foldlPush_eleven caps h, ?_⟩
  intro c0 rest hlen hid s hs
  rw [foldlPush_eleven _ (by simp [hlen])] at hs
  exact hid s (by simpa using hs)

/-- Witness for `recentCaptures_capacity_and_fifo` on 11 captures with
distinct ids. -/
theorem recentCaptures_capacity_and_fifo_witness :
    ((((List.range 11).map fun n => { dummyScreenshot with id := n }).foldl
        pushRecentScreenshot []).length ≤ 10) ∧
    (((List.range 11).map fun n => { dummyScreenshot with id := n }).foldl
        pushRecentScreenshot []
      = (((List.range 11).map fun n => { dummyScreenshot with id := n }).tail)) ∧
    (∀ s ∈ (({ dummyScreenshot with id := 0 } : Screenshot) ::
        ((List.range 10).map fun n => { dummyScreenshot with id := n + 1 })).foldl
          pushRecentScreenshot [],
      s.id ≠ ({ dummyScreenshot with id := 0 } : Screenshot).id) :=
  ⟨recentCaptures_capacity_and_fifo.1 _,
   recentCaptures_capacity_and_fifo.2.1 _ (by simp),
   fun s hs => recentCaptures_capacity_and_fifo.2.2
     { dummyScreenshot with id := 0 } _ (by simp) (by decide) s hs⟩

/-! ### C2 — sweep retries do NOT bypass the reachability short-circuit -/

/-- Branch equation: the short-circuit branch of the upload pipeline
(lines 299-303). -/
theorem uploadGo_disconnected
    (nested : St → List Bool → St × List Nat × List Bool)
    (st : St) (r : Nat) (oracle : List Bool) (now : Int)
    (h : st.serverConnected = false) :
    uploadScreenshotGo nested st r oracle now
      = ({ st with queue := st.queue ++ [r] }, [], oracle) := by
  unfold uploadScreenshotGo
  simp [h]

/-- The in-place mutation of a retried item (lines 387-388):
`item.retryCount = (item.retryCount || 0) + 1; item.lastRetry = now`. -/
def bumpRetry (item : Screenshot) (now : Int) : Screenshot :=
  { item with retryCount := some (item.retryCount.getD 0 + 1), lastRetry := some now }

/-- Branch equation: the max-retries drop step of the sweep loop
(lines 379-384). -/
theorem sweepListGo_cons_max
    (nested : St → List Bool → St × List Nat × List Bool) (mr : Nat) (now : Int)
    (r : Nat) (rest : List Nat) (st : St) (oracle : List Bool) (acc : List Nat)
    (h : retryCountAtMax mr (getObj st r) = true) :
    sweepListGo nested mr now (r :: rest) st oracle acc
      = sweepListGo nested mr now rest
          { st with queue := st.queue.filter (fun q => (getObj st q).id != (getObj st r).id) }
          oracle acc := by
  conv_lhs => rw [sweepListGo]
  simp only [h, if_true]

/-- Branch equation: the within-budget retry step of the sweep loop
(lines 386-391): mutate the item in place, then re-run the upload
pipeline on it. -/
theorem sweepListGo_cons_within
    (nested : St → List Bool → St × List Nat × List Bool) (mr : Nat) (now : Int)
    (r : Nat) (rest : List Nat) (st : St) (oracle : List Bool) (acc : List Nat)
    (h : retryCountAtMax mr (getObj st r) = false) :
    sweepListGo nested mr now (r :: rest) st oracle acc
      = (fun out => sweepListGo nested mr now rest out.1 out.2.2 (acc ++ out.2.1))
          (uploadScreenshotGo nested
            { st with heap := st.heap.set r (bumpRetry (getObj st r) now) }
            r oracle now) := by
  conv_lhs => rw [sweepListGo]
  simp only [h, Bool.false_eq_true, if_false, bumpRetry]

/-- While `serverConnected` is false the retry loop never reaches the
network: every processed item lands in the short-circuit branch of
`uploadScreenshot`, so no attempt is recorded, no fetch outcome is
consumed, and the connection flag stays false. -/
theorem sweepListGo_disconnected
    (nested : St → List Bool → St × List Nat × List Bool) (mr : Nat) (now : Int)
    (rs : List Nat) (st : St) (oracle : List Bool) (acc : List Nat)
    (h : st.serverConnected = false) :
    (sweepListGo nested mr now rs st oracle acc).1.serverConnected = false ∧
    (sweepListGo nested mr now rs st oracle acc).2.1 = acc ∧
    (sweepListGo nested mr now rs st oracle acc).2.2 = oracle := by
  induction rs generalizing st oracle acc with
  | nil => exact ⟨h, rfl, rfl⟩
  | cons r rest ih =>
    by_cases hm : retryCountAtMax mr (getObj st r) = true
    · rw [sweepListGo_cons_max nested mr now r rest st oracle acc hm]
      exact ih _ _ _ h
    · rw [sweepListGo_cons_within nested mr now r rest st oracle acc
        (by simpa using hm)]
      rw [uploadGo_disconnected nested
        { st with heap := st.heap.set r (bumpRetry (getObj st r) now) } r oracle now h]
      simpa using ih
        { st with queue := st.queue ++ [r]
                  heap := st.heap.set r (bumpRetry (getObj st r) now) }
        oracle acc h

/-- C2 amended: a sweep retry re-runs the full upload pipeline including
its step-1 reachability short-circuit — it does not bypass it.  When
`serverReachable` is false at sweep time, the sweep performs zero network
attempts (and consumes no fetch outcome); eligible within-budget items are
merely re-enqueued. -/
theorem sweep_retry_respects_short_circuit (fuel mr : Nat) (now : Int)
    (st : St) (oracle : List Bool) (h : st.serverConnected = false) :
    (scheduleRetry mr now fuel st oracle).2.1 = [] ∧
    (scheduleRetry mr now fuel st oracle).1.serverConnected = false ∧
    (scheduleRetry mr now fuel st oracle).2.2 = oracle := by
  cases fuel with
  | zero => exact ⟨rfl, h, rfl⟩
  | succ f =>
    unfold scheduleRetry
    have := sweepListGo_disconnected
      (fun st o => scheduleRetry mr now f st o) mr now
      (st.queue.filter (fun r => retryEligible now (getObj st r))) st oracle [] h
    exact ⟨this.2.1, this.1, this.2.2⟩

/-- Witness for `sweep_retry_respects_short_circuit`. -/
theorem sweep_retry_respects_short_circuit_witness :
    (scheduleRetry 3 9999 2 { serverConnected := false, queue := [], heap := [] }
        [true]).2.1 = [] ∧
    (scheduleRetry 3 9999 2 { serverConnected := false, queue := [], heap := [] }
        [true]).1.serverConnected = false ∧
    (scheduleRetry 3 9999 2 { serverConnected := false, queue := [], heap := [] }
        [true]).2.2 = [true] :=
  sweep_retry_respects_short_circuit 2 3 9999 _ [true] rfl

/-- The queue item of the C2 counterexample: eligible for retry (last
attempt 5 seconds ago, `retryCount = 0`) and well within the retry budget
(`maxRetries = 3`). -/
def c2Item : Screenshot :=
  { id := 5, timestamp := 0, url := "u", title := "t", dataUrl := "d", size := 1
    quality := 4/5, retryCount := some 0, lastRetry := some 0 }

/-- C2 counterexample state: the server is unreachable and `c2Item` sits
in the retry queue. -/
def c2St : St := { serverConnected := false, queue := [0], heap := [c2Item] }

/-- C2 counterexample: the queued item is eligible and within budget, yet
the sweep at `now = 5000` makes no network attempt — `uploadScreenshot`'s
reachability short-circuit fires and just re-enqueues the item (the same
reference now sits in the queue twice), refuting the claimed bypass. -/
theorem sweep_retry_short_circuit_cex :
    retryEligible 5000 (getObj c2St 0) = true ∧
    retryCountAtMax 3 (getObj c2St 0) = false ∧
    c2St.serverConnected = false ∧
    (scheduleRetry 3 5000 1 c2St []).2.1 = [] ∧
    (scheduleRetry 3 5000 1 c2St []).1.queue = [0, 0] := by
  refine ⟨by decide, by decide, rfl, by decide, by decide⟩

/-! ### C8 — unreachable server: skip network, enqueue with retryCount 0 -/

/-- C8: when `serverReachable` is false the upload pipeline skips the
network attempt entirely (no attempt recorded, no fetch outcome consumed)
and enqueues the capture as-is.  A fresh capture carries no `retryCount`
field; every reader coerces the missing field to `0` (`|| 0` on lines
373-374 and 387, and the `undefined >= maxRetries` comparison on line 379
is false just as `0 >= maxRetries` is for `maxRetries ≥ 1`), so the
enqueued pending upload carries effective `retryCount = 0`. -/
theorem upload_short_circuit_enqueues (fuel mr : Nat) (st : St) (r : Nat)
    (oracle : List Bool) (now : Int)
    (hconn : st.serverConnected = false)
    (hfresh : (getObj st r).retryCount = none) :
    uploadScreenshot fuel mr st r oracle now
      = ({ st with queue := st.queue ++ [r] }, [], oracle) ∧
    (getObj (uploadScreenshot fuel mr st r oracle now).1 r).retryCount.getD 0 = 0 ∧
    retryCountAtMax mr (getObj (uploadScreenshot fuel mr st r oracle now).1 r) = false := by
  have h1 : uploadScreenshot fuel mr st r oracle now
      = ({ st with queue := st.queue ++ [r] }, [], oracle) := by
    unfold uploadScreenshot uploadScreenshotGo
    simp [hconn]
  refine ⟨h1, ?_, ?_⟩ <;>
    rw [h1] <;>
    simp [getObj, retryCountAtMax, getObj] at hfresh ⊢ <;>
    simp [hfresh]

/-- Witness for `upload_short_circuit_enqueues`: a fresh capture uploaded
while disconnected. -/
theorem upload_short_circuit_enqueues_witness :
    uploadScreenshot 2 3
        { serverConnected := false, queue := [],
          heap := [{ dummyScreenshot with id := 9 }] } 0 [true] 1000
      = ({ serverConnected := false, queue := [0],
           heap := [{ dummyScreenshot with id := 9 }] }, [], [true]) ∧
    (getObj (uploadScreenshot 2 3
        { serverConnected := false, queue := [],
          heap := [{ dummyScreenshot with id := 9 }] } 0 [true] 1000).1 0).retryCount.getD 0 = 0 ∧
    retryCountAtMax 3 (getObj (uploadScreenshot 2 3
        { serverConnected := false, queue := [],
          heap := [{ dummyScreenshot with id := 9 }] } 0 [true] 1000).1 0) = false := by
  have := upload_short_circuit_enqueues 2 3
    { serverConnected := false, queue := [],
      heap := [{ dummyScreenshot with id := 9 }] } 0 [true] 1000 rfl (by decide)
  simpa using this

/-! ### C1 — maxRetries bounds retries per queue entry only, not per capture -/

/-- Every entry of a sweep snapshot whose objects are all at the retry
limit is dropped without an attempt: no attempt is recorded and no fetch
outcome is consumed. -/
theorem sweepListGo_all_max
    (nested : St → List Bool → St × List Nat × List Bool) (mr : Nat) (now : Int)
    (rs : List Nat) (st : St) (oracle : List Bool) (acc : List Nat)
    (hall : ∀ q ∈ rs, retryCountAtMax mr (getObj st q) = true) :
    (sweepListGo nested mr now rs st oracle acc).2.1 = acc ∧
    (sweepListGo nested mr now rs st oracle acc).2.2 = oracle ∧
    (sweepListGo nested mr now rs st oracle acc).1.heap = st.heap := by
  induction rs generalizing st with
  | nil => exact ⟨rfl, rfl, rfl⟩
  | cons r rest ih =>
    rw [sweepListGo_cons_max nested mr now r rest st oracle acc
      (hall r (List.mem_cons_self r rest))]
    exact ih
      { st with queue := st.queue.filter (fun q => (getObj st q).id != (getObj st r).id) }
      (fun q hq => hall q (List.mem_cons_of_mem r hq))

/-- C1 amended: the `maxRetries` bound is enforced per queue entry, not
per capture.  When the sweep processes an eligible entry whose
`retryCount` has reached `maxRetries`, it removes every queue entry
carrying that capture's id and makes no attempt for it; a sweep pass over
a queue whose entries are all at the limit makes no network attempt at
all.  The bound does not extend to the capture itself: a failed attempt
re-enqueues a fresh entry for the same capture with `retryCount` reset to
`0`, and the connectivity-probe drain attempts queued items without
consulting `retryCount`, so upload attempts for a capture id can continue
after an entry for it reached the limit (see the counterexample). -/
theorem sweep_max_retries_per_entry
    (nested : St → List Bool → St × List Nat × List Bool) (mr : Nat) (now : Int)
    (st : St) (oracle : List Bool) (acc : List Nat) (r : Nat) (rest : List Nat)
    (c : Nat) (hc : (getObj st r).retryCount = some c) (hmax : mr ≤ c) :
    (sweepListGo nested mr now (r :: rest) st oracle acc
       = sweepListGo nested mr now rest
           { st with queue := st.queue.filter (fun q => (getObj st q).id != (getObj st r).id) }
           oracle acc) ∧
    (∀ fuel (st' : St) (oracle' : List Bool),
        (∀ q ∈ st'.queue, retryCountAtMax mr (getObj st' q) = true) →
        (scheduleRetry mr now fuel st' oracle').2.1 = [] ∧
        (scheduleRetry mr now fuel st' oracle').2.2 = oracle') := by
  constructor
  · exact sweepListGo_cons_max nested mr now r rest st oracle acc
      (by simp [retryCountAtMax, hc]; omega)
  · intro fuel st' oracle' hall
    cases fuel with
    | zero => exact ⟨rfl, rfl⟩
    | succ f =>
      rw [scheduleRetry]
      have := sweepListGo_all_max (fun st o => scheduleRetry mr now f st o) mr now
        (st'.queue.filter (fun q => retryEligible now (getObj st' q))) st' oracle' []
        (fun q hq => hall q (List.mem_filter.mp hq).1)
      exact ⟨this.1, this.2.1⟩

/-- Witness state: one queued entry whose `retryCount` is at the limit
(`retryCount = 3 = maxRetries`). -/
def wMaxSt : St :=
  { serverConnected := true, queue := [0],
    heap := [{ dummyScreenshot with id := 4, retryCount := some 3, lastRetry := some 0 }] }

/-- Witness for `sweep_max_retries_per_entry` at `wMaxSt`. -/
theorem sweep_max_retries_per_entry_witness :
    (sweepListGo (fun s o => (s, [], o)) 3 8000 [0] wMaxSt [false] []
       = sweepListGo (fun s o => (s, [], o)) 3 8000 []
           { wMaxSt with queue := wMaxSt.queue.filter (fun q =>
               (getObj wMaxSt q).id != (getObj wMaxSt 0).id) }
           [false] []) ∧
    (∀ fuel (st' : St) (oracle' : List Bool),
        (∀ q ∈ st'.queue, retryCountAtMax 3 (getObj st' q) = true) →
        (scheduleRetry 3 8000 fuel st' oracle').2.1 = [] ∧
        (scheduleRetry 3 8000 fuel st' oracle').2.2 = oracle') := by
  have := sweep_max_retries_per_entry (fun s o => (s, [], o)) 3 8000
    wMaxSt [false] [] 0 [] 3 (by decide) (by decide)
  exact this

/-- The capture of the C1 counterexample, queued as a pending upload with
`retryCount = 0`, last attempted at time `0`. -/
def c1Item : Screenshot :=
  { id := 7, timestamp := 0, url := "u", title := "t", dataUrl := "d", size := 1
    quality := 4/5, retryCount := some 0, lastRetry := some 0 }

/-- C1 counterexample start state: server believed reachable, `c1Item`
queued. -/
def c1St : St := { serverConnected := true, queue := [0], heap := [c1Item] }

/-- The sweep at `t = 5000` with `maxRetries = 1` whose network attempt
fails. -/
def c1Sweep : St × List Nat × List Bool := scheduleRetry 1 5000 5 c1St [false]

/-- The connectivity probe at `t = 6000`: the health check succeeds and the
queue is drained; both drain uploads succeed. -/
def c1Probe : St × List Nat × List Nat × List Bool :=
  checkServerConnection 5 1 c1Sweep.1 true [true, true] 6000

/-- C1 counterexample (`maxRetries = 1`): the sweep attempts the capture
once and the failed attempt bumps the entry to `retryCount = 1 =
maxRetries` — yet the entry is still queued (together with a fresh
duplicate of the same capture carrying `retryCount = 0`), and the very
next connectivity probe drains the queue, making two further upload
attempts for capture id `7`.  So attempts for that capture total three
with `maxRetries = 1`, and attempts keep happening after its `retryCount`
reached `maxRetries`, refuting the claim. -/
theorem max_retries_not_terminal_cex :
    (getObj c1Sweep.1 0).retryCount = some 1 ∧
    c1Sweep.2.1 = [0] ∧
    c1Sweep.1.queue = [0, 1] ∧
    (getObj c1Sweep.1 1).id = 7 ∧ (getObj c1Sweep.1 1).retryCount = some 0 ∧
    (c1Probe.2.2.1.map fun r => (getObj c1Probe.1 r).id) = [7, 7] := by
  refine ⟨by decide, by decide, by decide, by decide, by decide, by decide⟩

/-! ### C9 — timer armed iff last toggle was start; toggles idempotent -/

/-- Equation for `startCapture` when not yet capturing: flag set, fresh
timer armed. -/
theorem startCapture_arms (st : CapSt) (p : Bool) (h : st.isCapturing = false) :
    startCapture st p
      = ({ st with isCapturing := true
                   captureTimer := some st.nextTimer
                   activeTimers := st.activeTimers ++ [st.nextTimer]
                   nextTimer := st.nextTimer + 1 }, Except.ok ()) := by
  unfold startCapture
  simp [h, saveState_ok]

/-- Equation for `stopCapture` when capturing with a stored timer: flag
cleared, that timer cleared. -/
theorem stopCapture_disarms (st : CapSt) (p : Bool) (t : Nat)
    (h : st.isCapturing = true) (ht : st.captureTimer = some t) :
    stopCapture st p
      = ({ st with isCapturing := false
                   captureTimer := none
                   activeTimers := st.activeTimers.filter (fun x => x != t) }, Except.ok ()) := by
  unfold stopCapture
  simp [h, saveState_ok, ht]

/-- The coordinator invariant tying the capturing flag to the platform
timers: capturing means exactly the stored timer runs, not capturing means
no timer runs. -/
def capInv (st : CapSt) : Prop :=
  (st.isCapturing = true → ∃ t, st.captureTimer = some t ∧ st.activeTimers = [t]) ∧
  (st.isCapturing = false → st.activeTimers = [])

/-- One toggle preserves the invariant, and the capturing flag afterwards
reflects the toggle just applied. -/
theorem applyToggle_inv (st : CapSt) (op : Toggle × Bool) (h : capInv st) :
    capInv (applyToggle st op) ∧
    (applyToggle st op).isCapturing
      = (match op.1 with | Toggle.start => true | Toggle.stop => false) := by
  obtain ⟨t, p⟩ := op
  cases t with
  | start =>
    by_cases hc : st.isCapturing = true
    · have hnoop : applyToggle st (Toggle.start, p) = st := by
        unfold applyToggle startCapture
        simp [hc]
      rw [hnoop]
      exact ⟨h, hc⟩
    · have hc' : st.isCapturing = false := by simpa using hc
      have harm : applyToggle st (Toggle.start, p)
          = { st with isCapturing := true
                      captureTimer := some st.nextTimer
                      activeTimers := st.activeTimers ++ [st.nextTimer]
                      nextTimer := st.nextTimer + 1 } := by
        unfold applyToggle
        rw [startCapture_arms st p hc']
      rw [harm]
      refine ⟨⟨fun _ => ⟨st.nextTimer, rfl, ?_⟩, fun hcontra => by simp at hcontra⟩, rfl⟩
      rw [h.2 hc']
      rfl
  | stop =>
    by_cases hc : st.isCapturing = true
    · obtain ⟨tm, htm, hact⟩ := h.1 hc
      have hdis : applyToggle st (Toggle.stop, p)
          = { st with isCapturing := false
                      captureTimer := none
                      activeTimers := st.activeTimers.filter (fun x => x != tm) } := by
        unfold applyToggle
        rw [stopCapture_disarms st p tm hc htm]
      rw [hdis]
      refine ⟨⟨fun hcontra => by simp at hcontra, fun _ => ?_⟩, rfl⟩
      rw [hact]
      simp
    · have hc' : st.isCapturing = false := by simpa using hc
      have hnoop : applyToggle st (Toggle.stop, p) = st := by
        unfold applyToggle stopCapture
        simp [hc']
      rw [hnoop]
      exact ⟨h, hc'⟩

/-- Running any toggle sequence from the initial state keeps the invariant,
and the capturing flag equals whether the latest toggle was a start. -/
theorem runToggles_spec (ops : List (Toggle × Bool)) :
    capInv (runToggles ops) ∧
    (runToggles ops).isCapturing = lastToggleIsStart ops := by
  induction ops using List.reverseRecOn with
  | nil =>
    exact ⟨⟨fun hcontra => by simp [runToggles, initialCapSt] at hcontra,
      fun _ => rfl⟩, rfl⟩
  | append_singleton ops op ih =>
    have h1 : runToggles (ops ++ [op]) = applyToggle (runToggles ops) op := by
      simp [runToggles, List.foldl_append]
    have h2 := applyToggle_inv (runToggles ops) op ih.1
    refine ⟨h1 ▸ h2.1, ?_⟩
    rw [h1, h2.2]
    obtain ⟨t, p⟩ := op
    cases t <;> simp [lastToggleIsStart, List.getLast?_concat]

/-- C9: for every sequence of `startCapture`/`stopCapture` calls from the
initial state, a capture timer is armed exactly when the most recent
toggle was `startCapture`, at most one timer is ever active, and toggling
in an already-matching state is a complete no-op (same state, success
response, no second timer). -/
theorem capture_trigger_armed_iff_last_start :
    (∀ ops : List (Toggle × Bool),
        ((runToggles ops).activeTimers ≠ [] ↔ lastToggleIsStart ops = true) ∧
        (runToggles ops).activeTimers.length ≤ 1) ∧
    (∀ st p, st.isCapturing = true → startCapture st p = (st, Except.ok ())) ∧
    (∀ st p, st.isCapturing = false → stopCapture st p = (st, Except.ok ())) := by
  refine ⟨?_, ?_, ?_⟩
  · intro ops
    obtain ⟨hinv, hlast⟩ := runToggles_spec ops
    constructor
    · constructor
      · intro hne
        by_contra hns
        have h0 : lastToggleIsStart ops = false := by
          cases hls : lastToggleIsStart ops
          · rfl
          · exact absurd hls hns
        have : (runToggles ops).isCapturing = false := by rw [hlast, h0]
        exact hne (hinv.2 this)
      · intro hls
        obtain ⟨t, _, hact⟩ := hinv.1 (by rw [hlast, hls])
        rw [hact]
        simp
    · cases hc : (runToggles ops).isCapturing
      · rw [hinv.2 hc]
        simp
      · obtain ⟨t, _, hact⟩ := hinv.1 hc
        rw [hact]
        simp
  · intro st p h
    unfold startCapture
    simp [h]
  · intro st p h
    unfold stopCapture
    simp [h]

/-- Witness for `capture_trigger_armed_iff_last_start`: a double-start
sequence, a start in the armed state, a stop in the initial state. -/
theorem capture_trigger_armed_iff_last_start_witness :
    (((runToggles [(Toggle.start, true), (Toggle.start, false)]).activeTimers ≠ []
        ↔ lastToggleIsStart [(Toggle.start, true), (Toggle.start, false)] = true) ∧
      (runToggles [(Toggle.start, true), (Toggle.start, false)]).activeTimers.length ≤ 1) ∧
    startCapture armedCapSt true = (armedCapSt, Except.ok ()) ∧
    stopCapture initialCapSt true = (initialCapSt, Except.ok ()) :=
  ⟨capture_trigger_armed_iff_last_start.1 _,
   capture_trigger_armed_iff_last_start.2.1 armedCapSt true rfl,
   capture_trigger_armed_iff_last_start.2.2 initialCapSt true rfl⟩

/-! ### C6 — exponential-backoff eligibility governs the sweep -/

/-- The fresh copy pushed by the upload failure path (lines 350-354):
`{...screenshotData, retryCount: 0, lastRetry: Date.now()}`. -/
def resetRetry (item : Screenshot) (now : Int) : Screenshot :=
  { item with retryCount := some 0, lastRetry := some now }

/-- The state change of the upload failure path (lines 346-361): allocate
the reset copy, enqueue its reference, mark the server disconnected. -/
def failPush (st : St) (r : Nat) (now : Int) : St :=
  { st with serverConnected := false
            heap := st.heap ++ [resetRetry (getObj st r) now]
            queue := st.queue ++ [st.heap.length] }

/-- Branch equation: the successful network attempt (lines 324-344). -/
theorem uploadGo_success
    (nested : St → List Bool → St × List Nat × List Bool)
    (st : St) (r : Nat) (oracle : List Bool) (now : Int)
    (h : st.serverConnected = true) (hok : oracle.headD false = true) :
    uploadScreenshotGo nested st r oracle now
      = ({ st with serverConnected := true }, [r], oracle.tail) := by
  have hok2 : oracle.head?.getD false = true := by simpa using hok
  unfold uploadScreenshotGo
  simp [h, hok, hok2]

/-- Branch equation: the failed network attempt (lines 346-365): reset
copy pushed, disconnected, nested sweep pass started. -/
theorem uploadGo_failure
    (nested : St → List Bool → St × List Nat × List Bool)
    (st : St) (r : Nat) (oracle : List Bool) (now : Int)
    (h : st.serverConnected = true) (hok : oracle.headD false = false) :
    uploadScreenshotGo nested st r oracle now
      = ((nested (failPush st r now) oracle.tail).1,
         r :: (nested (failPush st r now) oracle.tail).2.1,
         (nested (failPush st r now) oracle.tail).2.2) := by
  have hok2 : oracle.head?.getD false = false := by simpa using hok
  unfold uploadScreenshotGo failPush resetRetry
  simp [h, hok, hok2]

/-- An entry not being processed survives one upload-pipeline call
untouched and un-attempted, provided the nested sweep pass does the
same. -/
theorem uploadGo_preserves_entry
    (nested : St → List Bool → St × List Nat × List Bool)
    (rb : Nat) (v : Screenshot)
    (hnested : ∀ st' o', rb < st'.heap.length → getObj st' rb = v →
        rb < (nested st' o').1.heap.length ∧ getObj (nested st' o').1 rb = v ∧
        rb ∉ (nested st' o').2.1)
    (st : St) (t : Nat) (oracle : List Bool) (now : Int)
    (ht : t ≠ rb)
    (hlen : rb < st.heap.length) (hv : getObj st rb = v) :
    rb < (uploadScreenshotGo nested st t oracle now).1.heap.length ∧
    getObj (uploadScreenshotGo nested st t oracle now).1 rb = v ∧
    rb ∉ (uploadScreenshotGo nested st t oracle now).2.1 := by
  by_cases hc : st.serverConnected = false
  · rw [uploadGo_disconnected nested st t oracle now hc]
    exact ⟨hlen, hv, by simp⟩
  · have hc' : st.serverConnected = true := by simpa using hc
    by_cases hok : oracle.headD false = true
    · rw [uploadGo_success nested st t oracle now hc' hok]
      refine ⟨hlen, hv, ?_⟩
      intro hmem
      simp at hmem
      exact ht hmem.symm
    · rw [uploadGo_failure nested st t oracle now hc' (by simpa using hok)]
      have hlen2 : rb < (failPush st t now).heap.length := by
        show rb < (st.heap ++ [resetRetry (getObj st t) now]).length
        rw [List.length_append]
        omega
      have hv2 : getObj (failPush st t now) rb = v := by
        show (st.heap ++ [resetRetry (getObj st t) now]).getD rb dummyScreenshot = v
        rw [getD_append_lt _ _ _ hlen]
        exact hv
      have hn := hnested (failPush st t now) oracle.tail hlen2 hv2
      refine ⟨hn.1, hn.2.1, ?_⟩
      intro hmem
      rcases List.mem_cons.mp hmem with rfl | hmem2
      · exact ht rfl
      · exact hn.2.2 hmem2

/-- An entry outside the sweep snapshot survives the whole retry loop
untouched and un-attempted, provided nested sweep passes do the same. -/
theorem sweepListGo_preserves_entry
    (nested : St → List Bool → St × List Nat × List Bool) (mr : Nat) (now : Int)
    (rb : Nat) (v : Screenshot)
    (hnested : ∀ st' o', rb < st'.heap.length → getObj st' rb = v →
        rb < (nested st' o').1.heap.length ∧ getObj (nested st' o').1 rb = v ∧
        rb ∉ (nested st' o').2.1)
    (rs : List Nat) (st : St) (oracle : List Bool) (acc : List Nat)
    (hrs : rb ∉ rs) (hacc : rb ∉ acc)
    (hlen : rb < st.heap.length) (hv : getObj st rb = v) :
    rb < (sweepListGo nested mr now rs st oracle acc).1.heap.length ∧
    getObj (sweepListGo nested mr now rs st oracle acc).1 rb = v ∧
    rb ∉ (sweepListGo nested mr now rs st oracle acc).2.1 := by
  induction rs generalizing st oracle acc with
  | nil => exact ⟨hlen, hv, hacc⟩
  | cons r rest ih =>
    have hr : r ≠ rb := fun hh => hrs (hh ▸ List.mem_cons_self r rest)
    have hrest : rb ∉ rest := fun hh => hrs (List.mem_cons_of_mem r hh)
    by_cases hm : retryCountAtMax mr (getObj st r) = true
    · rw [sweepListGo_cons_max nested mr now r rest st oracle acc hm]
      exact ih _ _ _ hrest hacc hlen hv
    · rw [sweepListGo_cons_within nested mr now r rest st oracle acc
        (by simpa using hm)]
      have hlen2 : rb < ({ st with
          heap := st.heap.set r (bumpRetry (getObj st r) now) } : St).heap.length := by
        show rb < (st.heap.set r (bumpRetry (getObj st r) now)).length
        rw [List.length_set]
        exact hlen
      have hv2 : getObj { st with
          heap := st.heap.set r (bumpRetry (getObj st r) now) } rb = v := by
        show (st.heap.set r (bumpRetry (getObj st r) now)).getD rb dummyScreenshot = v
        rw [getD_set_ne _ _ hr]
        exact hv
      have hup := uploadGo_preserves_entry nested rb v hnested
        { st with heap := st.heap.set r (bumpRetry (getObj st r) now) }
        r oracle now hr hlen2 hv2
      have hrec := ih
        (uploadScreenshotGo nested
          { st with heap := st.heap.set r (bumpRetry (getObj st r) now) } r oracle now).1
        (uploadScreenshotGo nested
          { st with heap := st.heap.set r (bumpRetry (getObj st r) now) } r oracle now).2.2
        (acc ++ (uploadScreenshotGo nested
          { st with heap := st.heap.set r (bumpRetry (getObj st r) now) } r oracle now).2.1)
        hrest (by simp; exact ⟨hacc, hup.2.2⟩) hup.1 hup.2.1
      simpa using hrec

/-- An entry whose object fails the backoff test at sweep time is never
selected, hence never mutated and never attempted, through the whole
cascade of sweep passes at that time. -/
theorem scheduleRetry_preserves_ineligible_entry (mr : Nat) (now : Int)
    (rb : Nat) (v : Screenshot) (hinel : retryEligible now v = false) :
    ∀ (fuel : Nat) (st : St) (oracle : List Bool),
      rb < st.heap.length → getObj st rb = v →
      rb < (scheduleRetry mr now fuel st oracle).1.heap.length ∧
      getObj (scheduleRetry mr now fuel st oracle).1 rb = v ∧
      rb ∉ (scheduleRetry mr now fuel st oracle).2.1 := by
  intro fuel
  induction fuel with
  | zero => exact fun st oracle hlen hv => ⟨hlen, hv, by simp [scheduleRetry]⟩
  | succ f ih =>
    intro st oracle hlen hv
    rw [scheduleRetry]
    have hrs : rb ∉ st.queue.filter (fun r => retryEligible now (getObj st r)) := by
      intro hmem
      have h2 := (List.mem_filter.mp hmem).2
      simp only at h2
      rw [hv, hinel] at h2
      exact Bool.false_ne_true h2
    exact sweepListGo_preserves_entry (fun st o => scheduleRetry mr now f st o)
      mr now rb v (fun st' o' => ih st' o') _ st oracle [] hrs (by simp) hlen hv

/-- C6: a queued pending upload is eligible for a sweep retry exactly when
`now - lastAttemptAt ≥ 2^retryCount · 1000` ms, and an entry failing this
bound is left completely alone by that sweep tick: it is not attempted
(no matter how deep the cascade of sweep passes goes) and its fields are
unchanged. -/
theorem retry_backoff_eligibility (now : Int) (st : St) (r : Nat) (rc : Nat)
    (la : Int) (hr : r < st.heap.length)
    (h1 : (getObj st r).retryCount = some rc)
    (h2 : (getObj st r).lastRetry = some la) :
    (retryEligible now (getObj st r) = true ↔ 2 ^ rc * 1000 ≤ now - la) ∧
    (retryEligible now (getObj st r) = false →
      ∀ fuel mr oracle,
        r ∉ (scheduleRetry mr now fuel st oracle).2.1 ∧
        getObj (scheduleRetry mr now fuel st oracle).1 r = getObj st r) := by
  constructor
  · unfold retryEligible
    rw [h1, h2]
    simp [ge_iff_le]
  · intro hinel fuel mr oracle
    have := scheduleRetry_preserves_ineligible_entry mr now r (getObj st r) hinel
      fuel st oracle hr rfl
    exact ⟨this.2.2, this.2.1⟩

/-- Witness state for `retry_backoff_eligibility`: one pending upload,
last attempted at `t = 0` with `retryCount = 0`; at `now = 500` the 1000ms
backoff is not yet satisfied. -/
def wInelSt : St :=
  { serverConnected := true, queue := [0],
    heap := [{ dummyScreenshot with id := 2, retryCount := some 0, lastRetry := some 0 }] }

/-- Witness for `retry_backoff_eligibility` at `wInelSt`, `now = 500`. -/
theorem retry_backoff_eligibility_witness :
    (retryEligible 500 (getObj wInelSt 0) = true ↔ 2 ^ 0 * 1000 ≤ (500 : Int) - 0) ∧
    (retryEligible 500 (getObj wInelSt 0) = false →
      ∀ fuel mr oracle,
        0 ∉ (scheduleRetry mr 500 fuel wInelSt oracle).2.1 ∧
        getObj (scheduleRetry mr 500 fuel wInelSt oracle).1 0 = getObj wInelSt 0) :=
  retry_backoff_eligibility 500 wInelSt 0 0 0 (by decide) (by decide) (by decide)

/-! ### C7 — probe reconnect drains the whole queue at once -/

/-- A sweep pass over a queue with no backoff-eligible entry does
nothing. -/
theorem scheduleRetry_no_eligible (mr : Nat) (now : Int) (fuel : Nat) (st : St)
    (oracle : List Bool)
    (h : ∀ r ∈ st.queue, retryEligible now (getObj st r) = false) :
    scheduleRetry mr now fuel st oracle = (st, [], oracle) := by
  cases fuel with
  | zero => rfl
  | succ f =>
    rw [scheduleRetry]
    have hnil : st.queue.filter (fun r => retryEligible now (getObj st r)) = [] := by
      rw [List.filter_eq_nil_iff]
      intro a ha
      simp [h a ha]
    rw [hnil]
    rfl

/-- An item whose copy was just reset fails the backoff test at that same
instant (`now - now = 0 < 1000`). -/
theorem retryEligible_just_reset (now : Int) (item : Screenshot) :
    retryEligible now (resetRetry item now) = false := by
  unfold retryEligible resetRetry
  simp

/-- The drain loop passes exactly its snapshot through the pipeline, in
order, whatever the outcomes. -/
theorem drainLoop_runs (fuel mr : Nat) (now : Int) (rs : List Nat) (st : St)
    (oracle : List Bool) (runs attempts : List Nat) :
    (drainLoop fuel mr now rs st oracle runs attempts).2.1 = runs ++ rs := by
  induction rs generalizing st oracle runs attempts with
  | nil => simp [drainLoop]
  | cons r rest ih =>
    rw [drainLoop, ih]
    simp

/-- Draining while disconnected short-circuits every item straight back
onto the queue: no attempts, no fetch outcomes consumed. -/
theorem drainLoop_disconnected (fuel mr : Nat) (now : Int) (rs : List Nat)
    (st : St) (oracle : List Bool) (runs attempts : List Nat)
    (h : st.serverConnected = false) :
    drainLoop fuel mr now rs st oracle runs attempts
      = ({ st with queue := st.queue ++ rs }, runs ++ rs, attempts, oracle) := by
  induction rs generalizing st runs with
  | nil => simp [drainLoop]
  | cons r rest ih =>
    rw [drainLoop]
    rw [show uploadScreenshot fuel mr st r oracle now
        = ({ st with queue := st.queue ++ [r] }, [], oracle) by
      unfold uploadScreenshot
      exact uploadGo_disconnected _ st r oracle now h]
    dsimp only
    rw [List.append_nil]
    rw [ih { st with queue := st.queue ++ [r] } (runs ++ [r]) h]
    simp

/-- Draining a queue while connected with every upload failing: the head
item's network attempt fails (re-enqueueing a reset copy and dropping the
connection), all later items short-circuit back onto the queue, so the
final queue carries exactly the original capture ids, in order. -/
theorem drainLoop_all_fail_ids (fuel mr : Nat) (now : Int) (r0 : Nat)
    (rest : List Nat) (hp : List Screenshot)
    (hwf : ∀ q ∈ rest, q < hp.length) :
    ((drainLoop fuel mr now (r0 :: rest) ⟨true, [], hp⟩
        (List.replicate (r0 :: rest).length false) [] []).1.queue.map
      (fun q => (getObj (drainLoop fuel mr now (r0 :: rest) ⟨true, [], hp⟩
        (List.replicate (r0 :: rest).length false) [] []).1 q).id))
    = (r0 :: rest).map (fun q => (hp.getD q dummyScreenshot).id) := by
  have hrepl : List.replicate (r0 :: rest).length false
      = false :: List.replicate rest.length false := by
    simp [List.replicate_succ]
  rw [hrepl]
  rw [drainLoop]
  rw [show uploadScreenshot fuel mr ⟨true, [], hp⟩ r0
        (false :: List.replicate rest.length false) now
      = (failPush ⟨true, [], hp⟩ r0 now, [r0], List.replicate rest.length false)
    from ?upl]
  case upl =>
    unfold uploadScreenshot
    rw [uploadGo_failure _ (⟨true, [], hp⟩ : St) r0
      (false :: List.replicate rest.length false) now rfl rfl]
    rw [scheduleRetry_no_eligible mr now fuel _ _ ?noel]
    case noel =>
      intro q hqmem
      have hq1 : (failPush (⟨true, [], hp⟩ : St) r0 now).queue = [hp.length] := rfl
      rw [hq1] at hqmem
      simp at hqmem
      subst hqmem
      have hobj : getObj (failPush (⟨true, [], hp⟩ : St) r0 now) hp.length
          = resetRetry (getObj ⟨true, [], hp⟩ r0) now := getD_append_self _ _ _
      rw [hobj, retryEligible_just_reset]
    rfl
  dsimp only
  rw [drainLoop_disconnected fuel mr now rest _ _ _ _ rfl]
  dsimp only
  show (((failPush (⟨true, [], hp⟩ : St) r0 now).queue ++ rest).map
      (fun q => ((failPush (⟨true, [], hp⟩ : St) r0 now).heap.getD q dummyScreenshot).id))
    = (r0 :: rest).map (fun q => (hp.getD q dummyScreenshot).id)
  have hq2 : (failPush (⟨true, [], hp⟩ : St) r0 now).queue = [hp.length] := rfl
  have hh2 : (failPush (⟨true, [], hp⟩ : St) r0 now).heap
      = hp ++ [resetRetry (hp.getD r0 dummyScreenshot) now] := rfl
  rw [hq2, hh2]
  rw [List.singleton_append, List.map_cons, List.map_cons]
  congr 1
  · rw [getD_append_self]
    rfl
  · apply List.map_congr_left
    intro q hqmem
    rw [getD_append_lt _ _ _ (hwf q hqmem)]

/-- C7: when the probe finds the server reachable while it was believed
unreachable and the queue is non-empty, that same probe invocation pushes
the entire queue snapshot through the upload pipeline, in order (first
conjunct, for every outcome oracle).  With every drain upload failing,
every snapshot item is re-enqueued for the normal sweep: the drained
queue afterwards carries exactly the same capture ids, in order (second
conjunct). -/
theorem probe_reconnect_drains_queue (fuel mr : Nat) (st : St)
    (oracle : List Bool) (now : Int)
    (hconn : st.serverConnected = false) (hne : st.queue ≠ [])
    (hwf : ∀ r ∈ st.queue, r < st.heap.length) :
    (checkServerConnection fuel mr st true oracle now).2.1 = st.queue ∧
    ((checkServerConnection fuel mr st true
          (List.replicate st.queue.length false) now).1.queue.map
        (fun r => (getObj (checkServerConnection fuel mr st true
          (List.replicate st.queue.length false) now).1 r).id))
      = st.queue.map (fun r => (getObj st r).id) := by
  obtain ⟨sc, qu, hp⟩ := st
  simp only at hconn hne hwf
  subst hconn
  obtain ⟨r0, rest, hq⟩ : ∃ r0 rest, qu = r0 :: rest := by
    cases hqq : qu with
    | nil => exact absurd hqq hne
    | cons a b => exact ⟨a, b, rfl⟩
  subst hq
  constructor
  · unfold checkServerConnection
    dsimp only
    rw [if_pos ⟨rfl, by simp⟩]
    unfold processUploadQueue
    dsimp only
    rw [if_neg (by simp)]
    rw [drainLoop_runs]
    simp
  · unfold checkServerConnection
    dsimp only
    rw [if_pos ⟨rfl, by simp⟩]
    unfold processUploadQueue
    dsimp only
    rw [if_neg (by simp)]
    exact drainLoop_all_fail_ids fuel mr now r0 rest hp
      (fun q hqmem => hwf q (List.mem_cons_of_mem r0 hqmem))

/-- Witness state for `probe_reconnect_drains_queue`: unreachable server,
one queued capture. -/
def wDrainSt : St :=
  { serverConnected := false, queue := [0],
    heap := [{ dummyScreenshot with id := 3, retryCount := some 0, lastRetry := some 0 }] }

/-- Witness for `probe_reconnect_drains_queue` at `wDrainSt`. -/
theorem probe_reconnect_drains_queue_witness :
    (checkServerConnection 2 3 wDrainSt true [true] 9000).2.1 = wDrainSt.queue ∧
    ((checkServerConnection 2 3 wDrainSt true
          (List.replicate wDrainSt.queue.length false) 9000).1.queue.map
        (fun r => (getObj (checkServerConnection 2 3 wDrainSt true
          (List.replicate wDrainSt.queue.length false) 9000).1 r).id))
      = wDrainSt.queue.map (fun r => (getObj wDrainSt r).id) :=
  probe_reconnect_drains_queue 2 3 wDrainSt [true] 9000 rfl (by decide) (by decide)

end EMR
